import Mathlib

/-
Verification of the S3IterableDataset adapter
(src/s3torchconnector/src/s3torchconnector/s3iterable_dataset.py)
against its natural-language specification.

The embedding is shallow: the Python class becomes a Lean structure, the
mutable client field becomes explicit state passing, raising code returns
Except values, and the observable side effects (client creation, listing
calls, get_object calls, transform invocations) are recorded in an explicit
event trace. Code of the repository that is not under src (the _s3client
and _s3dataset_common modules) is modelled from the spec; every such
definition carries a doc comment starting with the words Modelled from the
spec.
-/

set_option maxRecDepth 4000

deriving instance DecidableEq for Except

namespace S3Connector

/-- A bucket and key pair identifying one S3 object, as in the
_s3bucket_key.S3BucketKey record the dataset code imports. -/
structure S3BucketKey where
  bucket : String
  key : String
deriving DecidableEq

/-- Modelled from the spec: the S3Reader handle (a FetchedObject in the
words of the spec) returned by a successful get_object call, combining the
object identity with its bytes; the reader class is not under src. -/
structure S3Reader where
  bucket : String
  key : String
  bytes : List Nat
deriving DecidableEq

/-- Modelled from the spec: the error conditions an object store call can
fail with (section 6 of the spec); the client class raising them is not
under src. -/
inductive S3Error where
  | notFound
  | accessDenied
  | unavailable
  | timeout
  | connectionReset
  | serverError
deriving DecidableEq

/-- Modelled from the spec: transient errors are timeout, 5xx-equivalent
and connection reset; everything else is permanent. -/
def S3Error.isTransient : S3Error → Bool
  | S3Error.timeout => true
  | S3Error.connectionReset => true
  | S3Error.serverError => true
  | _ => false

/-- The errors that can reach the consumer of the dataset: a malformed URI
reported by the selection helpers, a store error propagated from
get_object, or an error propagated from the user transform. The dataset
code under src wraps none of them. -/
inductive PipelineError where
  | invalidSpec (uri : String)
  | s3Error (e : S3Error)
  | transformError (msg : String)
deriving DecidableEq

/-- Modelled from the spec: an S3Client handle is determined by the region
it was constructed with; the client class is not under src. -/
structure S3Client where
  region : String
deriving DecidableEq

/-- The remote object store the client talks to: a listing for every
bucket and key prefix, and a response for every get_object call. The store
is an external collaborator of the code under verification. -/
structure Store where
  listObjects : String → String → List S3BucketKey
  getObject : String → String → Except S3Error S3Reader

/-- The observable side effects of running the dataset code: client
creation, a listing call, the start and end of a get_object call, and an
invocation of the user transform. -/
inductive Event where
  | createClient (region : String)
  | listCall (bucket pfx : String)
  | getStart (bk : S3BucketKey)
  | getEnd (bk : S3BucketKey)
  | transformCall (bk : S3BucketKey)
deriving DecidableEq

/-- True exactly on client creation events. -/
def Event.isCreate : Event → Bool
  | Event.createClient _ => true
  | _ => false

/-- True exactly on listing call events. -/
def Event.isListCall : Event → Bool
  | Event.listCall _ _ => true
  | _ => false

/-- The S3IterableDataset state: the four fields assigned by __init__ ,
namely the region, the selection callable, the transform and the lazily
created client. The selection callable receives the client and, to model
the remote world reached through that client, the store. The transform may
fail, which models a raising user function. -/
structure S3IterableDataset (α : Type) where
  _region : String
  _get_dataset_objects : S3Client → Store → Except PipelineError (List S3BucketKey)
  _transform : S3Reader → Except String α
  _client : Option S3Client

variable {α : Type}

/-- The region property of the dataset. -/
def S3IterableDataset.region (ds : S3IterableDataset α) : String := ds._region

/-- Characters of the s3 scheme marker at the front of an S3 URI. -/
def schemeChars : List Char := [ 's', '3', ':', '/', '/' ]

/-- Split a character list at the first slash: the part before it, and the
part after it when a slash occurs at all. -/
def splitFirstSlash : List Char → List Char × Option (List Char)
  | [] => ([], none)
  | c :: cs =>
    if c = '/' then ([], some cs)
    else ((c :: (splitFirstSlash cs).1), (splitFirstSlash cs).2)

/-- Modelled from the spec: parse_s3_uri from _s3dataset_common, which is
not under src. An object URI has the s3 scheme, then a bucket, a slash and
a key; a URI with the wrong scheme, an empty bucket or a missing or empty
key is malformed and reported as an invalid specification. -/
def parse_s3_uri (uri : String) : Except PipelineError S3BucketKey :=
  if uri.data.take 5 = schemeChars then
    match (splitFirstSlash (uri.data.drop 5)).2 with
    | none => Except.error (PipelineError.invalidSpec uri)
    | some keyChars =>
      if (splitFirstSlash (uri.data.drop 5)).1 = [] then
        Except.error (PipelineError.invalidSpec uri)
      else if keyChars = [] then Except.error (PipelineError.invalidSpec uri)
      else Except.ok
        { bucket := String.mk (splitFirstSlash (uri.data.drop 5)).1,
          key := String.mk keyChars }
  else Except.error (PipelineError.invalidSpec uri)

/-- Modelled from the spec: the prefix mode parses its URI into a bucket
and a key prefix; the prefix may be empty or absent, the bucket may not be
empty, and the scheme must be the s3 scheme. -/
def parsePrefixUri (uri : String) : Except PipelineError S3BucketKey :=
  if uri.data.take 5 = schemeChars then
    if (splitFirstSlash (uri.data.drop 5)).1 = [] then
      Except.error (PipelineError.invalidSpec uri)
    else Except.ok
      { bucket := String.mk (splitFirstSlash (uri.data.drop 5)).1,
        key := String.mk ((splitFirstSlash (uri.data.drop 5)).2.getD []) }
  else Except.error (PipelineError.invalidSpec uri)

/-- Modelled from the spec: get_objects_from_uris from _s3dataset_common,
which is not under src. Every URI is parsed in input order, duplicates are
preserved, and a malformed URI raises when this function runs; the src
code only defers the call through a partial application, so the parse
happens when the selection callable is invoked. -/
def get_objects_from_uris : List String → Except PipelineError (List S3BucketKey)
  | [] => Except.ok []
  | u :: us =>
    match parse_s3_uri u with
    | Except.error e => Except.error e
    | Except.ok bk =>
      match get_objects_from_uris us with
      | Except.error e => Except.error e
      | Except.ok bks => Except.ok (bk :: bks)

/-- The identity default transform, named identity in _s3dataset_common,
which is not under src. Modelled from the spec: the fetched object is
passed through unchanged when the user supplies no transform. -/
def identity : S3Reader → Except String S3Reader := fun r => Except.ok r

/-- S3IterableDataset.__init__ : store the region, the selection callable
and the transform; no client exists yet. -/
def S3IterableDataset.init (region : String)
    (getObjects : S3Client → Store → Except PipelineError (List S3BucketKey))
    (transform : S3Reader → Except String α) : S3IterableDataset α :=
  { _region := region, _get_dataset_objects := getObjects,
    _transform := transform, _client := none }

/-- S3IterableDataset.from_objects : build the dataset whose selection
callable parses the given URIs when it is invoked; the partial application
in the source defers the parse, so nothing is parsed here. -/
def from_objects (uris : List String) (region : String)
    (transform : S3Reader → Except String α) : S3IterableDataset α :=
  S3IterableDataset.init region (fun _ _ => get_objects_from_uris uris) transform

/-- S3IterableDataset.from_prefix : build the dataset whose selection
callable parses the prefix URI and lists the store under the parsed bucket
and key prefix when it is invoked; nothing is parsed or listed here. -/
def from_prefix (uri : String) (region : String)
    (transform : S3Reader → Except String α) : S3IterableDataset α :=
  S3IterableDataset.init region
    (fun _ store =>
      match parsePrefixUri uri with
      | Except.error e => Except.error e
      | Except.ok bk => Except.ok (store.listObjects bk.bucket bk.key))
    transform

/-- S3IterableDataset._get_client : return the memoized client, or create
it from the region property on first use, record the creation event and
memoize it. -/
def _get_client (ds : S3IterableDataset α) :
    S3Client × S3IterableDataset α × List Event :=
  match ds._client with
  | some c => (c, ds, [])
  | none =>
    ({ region := ds.region }, { ds with _client := some { region := ds.region } },
      [Event.createClient ds.region])

/-- S3IterableDataset._get_transformed_object : fetch one object through
the possibly just created client and apply the transform to the reader;
a store error or a transform error propagates unwrapped. -/
def _get_transformed_object (ds : S3IterableDataset α) (store : Store)
    (bk : S3BucketKey) :
    Except PipelineError α × S3IterableDataset α × List Event :=
  match store.getObject bk.bucket bk.key with
  | Except.error e =>
    (Except.error (PipelineError.s3Error e), ( _get_client ds).2.1,
      ( _get_client ds).2.2 ++ [Event.getStart bk, Event.getEnd bk])
  | Except.ok obj =>
    match ( _get_client ds).2.1._transform obj with
    | Except.error m =>
      (Except.error (PipelineError.transformError m), ( _get_client ds).2.1,
        ( _get_client ds).2.2 ++
          [Event.getStart bk, Event.getEnd bk, Event.transformCall bk])
    | Except.ok a =>
      (Except.ok a, ( _get_client ds).2.1,
        ( _get_client ds).2.2 ++
          [Event.getStart bk, Event.getEnd bk, Event.transformCall bk])

/-- The map in __iter__ , drained to the end of the identifier list or to
the first raised error: the items emitted before the stop, the terminating
error when one was raised, the final dataset state and the event trace. -/
def mapItems (store : Store) :
    S3IterableDataset α → List S3BucketKey →
    (List α × Option PipelineError) × S3IterableDataset α × List Event
  | ds, [] => (([], none), ds, [])
  | ds, bk :: rest =>
    match _get_transformed_object ds store bk with
    | (Except.error e, ds1, ev) => (([], some e), ds1, ev)
    | (Except.ok a, ds1, ev) =>
      ((a :: (mapItems store ds1 rest).1.1, (mapItems store ds1 rest).1.2),
        (mapItems store ds1 rest).2.1, ev ++ (mapItems store ds1 rest).2.2)

/-- S3IterableDataset.__iter__ , drained: obtain the client (creating it
when absent), invoke the selection callable with it, then map
_get_transformed_object over the produced identifiers. -/
def iterDataset (ds : S3IterableDataset α) (store : Store) :
    (List α × Option PipelineError) × S3IterableDataset α × List Event :=
  match ( _get_client ds).2.1._get_dataset_objects ( _get_client ds).1 store with
  | Except.error e => (([], some e), ( _get_client ds).2.1, ( _get_client ds).2.2)
  | Except.ok ids =>
    ((mapItems store ( _get_client ds).2.1 ids).1,
      (mapItems store ( _get_client ds).2.1 ids).2.1,
      ( _get_client ds).2.2 ++ (mapItems store ( _get_client ds).2.1 ids).2.2)

/-- The value component of _get_transformed_object , the per-identifier
observable outcome. -/
def fetchVal (ds : S3IterableDataset α) (store : Store) (bk : S3BucketKey) :
    Except PipelineError α :=
  ( _get_transformed_object ds store bk).1

/-- The operations a consumer can perform on a dataset instance: a full
iteration, a read of the region property, and a direct client access. -/
inductive DatasetOp where
  | iterate
  | readRegion
  | getClientCall

/-- Run one operation, returning the new dataset state and the events. -/
def runOp (store : Store) (ds : S3IterableDataset α) :
    DatasetOp → S3IterableDataset α × List Event
  | DatasetOp.iterate => ((iterDataset ds store).2.1, (iterDataset ds store).2.2)
  | DatasetOp.readRegion => (ds, [])
  | DatasetOp.getClientCall => (( _get_client ds).2.1, ( _get_client ds).2.2)

/-- Run a sequence of operations, accumulating the event trace. -/
def runOps (store : Store) :
    S3IterableDataset α → List DatasetOp → S3IterableDataset α × List Event
  | ds, [] => (ds, [])
  | ds, op :: ops =>
    ((runOps store (runOp store ds op).1 ops).1,
      (runOp store ds op).2 ++ (runOps store (runOp store ds op).1 ops).2)

/-- The number of client creation events in a trace. -/
def countCreates (evs : List Event) : Nat := evs.countP Event.isCreate

/-- One when the dataset still lacks a client, zero once it has one. -/
def clientBit (ds : S3IterableDataset α) : Nat :=
  match ds._client with
  | none => 1
  | some _ => 0

/-- Modelled from the spec: the default size W of the fetch window. -/
def defaultWindow : Nat := 8

/-- Starting from n open get calls, check that the running number of open
get calls never exceeds w along the trace: a getStart opens one, a getEnd
closes one, every other event leaves the count unchanged. -/
def getsBounded (w : Nat) : Nat → List Event → Bool
  | _, [] => true
  | n, Event.getStart _ :: es => decide (n + 1 ≤ w) && getsBounded w (n + 1) es
  | n, Event.getEnd _ :: es => getsBounded w (n - 1) es
  | n, Event.createClient _ :: es => getsBounded w n es
  | n, Event.listCall _ _ :: es => getsBounded w n es
  | n, Event.transformCall _ :: es => getsBounded w n es

/-- The number of get calls still open after the trace, starting from n. -/
def openAfter : Nat → List Event → Nat
  | n, [] => n
  | n, Event.getStart _ :: es => openAfter (n + 1) es
  | n, Event.getEnd _ :: es => openAfter (n - 1) es
  | n, Event.createClient _ :: es => openAfter n es
  | n, Event.listCall _ _ :: es => openAfter n es
  | n, Event.transformCall _ :: es => openAfter n es

/-- Modelled from the spec: the default retry budget of a fetch. -/
def retryLimit : Nat := 3

/-- Modelled from the spec: the retry loop inside the client get path,
which is not under src. Attempt the fetch; on a transient error with
budget left, wait a delay that doubles with every retry and try again; a
permanent error, or a transient error once the budget is exhausted, is
surfaced. The argument attempts gives the outcome of the n-th attempt,
base is the first backoff delay, i the index of the current attempt; the
returned list holds the delays waited. -/
def retryFetch (attempts : Nat → Except S3Error S3Reader) (base : Nat) :
    Nat → Nat → Except S3Error S3Reader × List Nat
  | i, 0 =>
    (match attempts i with
      | Except.ok r => Except.ok r
      | Except.error e => Except.error e, [])
  | i, b + 1 =>
    match attempts i with
    | Except.ok r => (Except.ok r, [])
    | Except.error e =>
      if e.isTransient then
        ((retryFetch attempts base (i + 1) b).1,
          base * 2 ^ i :: (retryFetch attempts base (i + 1) b).2)
      else (Except.error e, [])

/-- Modelled from the spec: one client get call with the retry policy,
starting at attempt zero with the full default budget. -/
def get_object_retrying (attempts : Nat → Except S3Error S3Reader)
    (base : Nat) : Except S3Error S3Reader × List Nat :=
  retryFetch attempts base 0 retryLimit

/-- Modelled from the spec: the generator made by get_objects_from_prefix
is created without running its body; the body, which parses the URI and
issues the listing call, runs on the first pull. -/
inductive PrefixGenState where
  | unstarted
  | running (rest : List S3BucketKey)
deriving DecidableEq

/-- The state of one lazily consumed __iter__ call on a dataset built in
prefix mode: the URI captured by the selection callable, the dataset
(holding the memoized client) and the generator state. -/
structure PrefixIterState (α : Type) where
  uri : String
  ds : S3IterableDataset α
  gen : PrefixGenState

/-- Calling __iter__ lazily: the client is created or reused now and the
generator is created unstarted; no parsing and no listing happens yet. -/
def iterLazyInit (uri : String) (ds : S3IterableDataset α) :
    PrefixIterState α × List Event :=
  ({ uri := uri, ds := ( _get_client ds).2.1, gen := PrefixGenState.unstarted },
    ( _get_client ds).2.2)

/-- One pull on the lazy iterator: the first pull runs the generator body,
which parses the URI and issues the listing call; every pull holding a
pending identifier fetches and transforms that one object. The first
component is none at exhaustion. -/
def pullNext (store : Store) (st : PrefixIterState α) :
    Option (Except PipelineError α) × PrefixIterState α × List Event :=
  match st.gen with
  | PrefixGenState.unstarted =>
    match parsePrefixUri st.uri with
    | Except.error e =>
      (some (Except.error e), { st with gen := PrefixGenState.running [] }, [])
    | Except.ok pb =>
      match store.listObjects pb.bucket pb.key with
      | [] =>
        (none, { st with gen := PrefixGenState.running [] },
          [Event.listCall pb.bucket pb.key])
      | bk :: rest =>
        (some ( _get_transformed_object st.ds store bk).1,
          { st with
            ds := ( _get_transformed_object st.ds store bk).2.1,
            gen := PrefixGenState.running rest },
          Event.listCall pb.bucket pb.key ::
            ( _get_transformed_object st.ds store bk).2.2)
  | PrefixGenState.running [] => (none, st, [])
  | PrefixGenState.running (bk :: rest) =>
    (some ( _get_transformed_object st.ds store bk).1,
      { st with
        ds := ( _get_transformed_object st.ds store bk).2.1,
        gen := PrefixGenState.running rest },
      ( _get_transformed_object st.ds store bk).2.2)

/-- Concrete inputs for the witnesses and counterexamples. -/
def uriA : String := "s3://b/a.bin"

/-- A second concrete object URI. -/
def uriB : String := "s3://b/b.bin"

/-- A concrete prefix URI. -/
def dataUri : String := "s3://b/data/"

/-- A URI without the s3 scheme, hence malformed. -/
def badUri : String := "file.txt"

/-- A concrete region. -/
def regionA : String := "us-east-1"

/-- The bucket of the concrete URIs. -/
def bucketB : String := "b"

/-- The key of the first concrete URI. -/
def keyA : String := "a.bin"

/-- The key of the second concrete URI. -/
def keyB : String := "b.bin"

/-- The key prefix of the concrete prefix URI. -/
def dataPfx : String := "data/"

/-- The identifier named by the first concrete URI. -/
def bkA : S3BucketKey := { bucket := bucketB, key := keyA }

/-- The identifier named by the second concrete URI. -/
def bkB : S3BucketKey := { bucket := bucketB, key := keyB }

/-- A store answering every get with a one-byte object and listing the two
concrete identifiers under every prefix. -/
def storeC : Store :=
  { listObjects := fun _ _ => [bkA, bkB],
    getObject := fun b k => Except.ok { bucket := b, key := k, bytes := [0] } }

/-- A store with no objects at all. -/
def emptyStore : Store :=
  { listObjects := fun _ _ => [],
    getObject := fun _ _ => Except.error S3Error.notFound }

/-- The message of the always raising transform. -/
def boomMsg : String := "boom"

/-- A user transform raising on every fetched object. -/
def boomTransform : S3Reader → Except String S3Reader :=
  fun _ => Except.error boomMsg

/-- The reader storeC returns for the first identifier. -/
def readerA : S3Reader := { bucket := bucketB, key := keyA, bytes := [0] }

/-- The reader storeC returns for the second identifier. -/
def readerB : S3Reader := { bucket := bucketB, key := keyB, bytes := [0] }

/-- A fetch outcome function failing every attempt with a timeout. -/
def timeoutAttempts : Nat → Except S3Error S3Reader :=
  fun _ => Except.error S3Error.timeout

/-- The concrete dataset used by several witnesses. -/
def dsW : S3IterableDataset S3Reader := from_objects [uriA, uriB] regionA identity

/-- A concrete operation sequence used by the client creation witness. -/
def opsW : List DatasetOp :=
  [DatasetOp.iterate, DatasetOp.readRegion, DatasetOp.iterate,
    DatasetOp.getClientCall]

/-- A dataset that already holds a client is returned unchanged by
_get_client , with no events. -/
theorem _get_client_of_some (ds : S3IterableDataset α) (c : S3Client)
    (h : ds._client = some c) : _get_client ds = (c, ds, []) := by
  simp [ _get_client, h]

/-- After _get_client the dataset always holds the returned client. -/
theorem _get_client_client (ds : S3IterableDataset α) :
    (( _get_client ds).2.1)._client = some ( _get_client ds).1 := by
  cases h : ds._client <;> simp [ _get_client, h]

/-- A second _get_client call returns the handle of the first and changes
nothing. -/
theorem _get_client_idem (ds : S3IterableDataset α) :
    _get_client ( _get_client ds).2.1 =
      (( _get_client ds).1, ( _get_client ds).2.1, []) := by
  exact _get_client_of_some _ _ ( _get_client_client ds)

/-- _get_client either leaves the state unchanged, or the client was absent
and the only change is the memoized fresh client, with one creation
event. -/
theorem _get_client_cases (ds : S3IterableDataset α) :
    ( _get_client ds = (( _get_client ds).1, ds, []) ∧ ds._client = some ( _get_client ds).1) ∨
      (ds._client = none ∧
        _get_client ds =
          ({ region := ds._region },
            { ds with _client := some { region := ds._region } },
            [Event.createClient ds._region])) := by
  cases h : ds._client with
  | none => exact Or.inr ⟨rfl, by simp [ _get_client, h, S3IterableDataset.region]⟩
  | some c => exact Or.inl ⟨by simp [ _get_client, h], by simp [ _get_client, h]⟩

/-- _get_client never changes the region field. -/
theorem _get_client_region (ds : S3IterableDataset α) :
    (( _get_client ds).2.1)._region = ds._region := by
  cases h : ds._client <;> simp [ _get_client, h]

/-- _get_client never changes the transform field. -/
theorem _get_client_transform (ds : S3IterableDataset α) :
    (( _get_client ds).2.1)._transform = ds._transform := by
  cases h : ds._client <;> simp [ _get_client, h]

/-- _get_client never changes the selection callable. -/
theorem _get_client_gdo (ds : S3IterableDataset α) :
    (( _get_client ds).2.1)._get_dataset_objects = ds._get_dataset_objects := by
  cases h : ds._client <;> simp [ _get_client, h]

/-- Under a memoized client, _get_transformed_object leaves the state
unchanged and its events are the get call bracket, possibly followed by
the transform invocation. -/
theorem _gto_of_some (ds : S3IterableDataset α) (c : S3Client) (store : Store)
    (bk : S3BucketKey) (h : ds._client = some c) :
    ( _get_transformed_object ds store bk).2.1 = ds ∧
      ∃ tail, ( _get_transformed_object ds store bk).2.2 =
          Event.getStart bk :: Event.getEnd bk :: tail ∧
        (tail = [] ∨ tail = [Event.transformCall bk]) := by
  have hc : _get_client ds = (c, ds, []) := _get_client_of_some ds c h
  cases hg : store.getObject bk.bucket bk.key with
  | error e =>
    exact ⟨by simp [ _get_transformed_object, hc, hg], [],
      by simp [ _get_transformed_object, hc, hg], Or.inl rfl⟩
  | ok obj =>
    cases ht : ds._transform obj with
    | error m =>
      exact ⟨by simp [ _get_transformed_object, hc, hg, ht], [Event.transformCall bk],
        by simp [ _get_transformed_object, hc, hg, ht], Or.inr rfl⟩
    | ok a =>
      exact ⟨by simp [ _get_transformed_object, hc, hg, ht], [Event.transformCall bk],
        by simp [ _get_transformed_object, hc, hg, ht], Or.inr rfl⟩

/-- Under a memoized client, a successful per-identifier outcome determines
_get_transformed_object completely. -/
theorem _gto_full_of_ok (ds : S3IterableDataset α) (c : S3Client) (store : Store)
    (bk : S3BucketKey) (a : α) (h : ds._client = some c)
    (hv : fetchVal ds store bk = Except.ok a) :
    _get_transformed_object ds store bk =
      (Except.ok a, ds,
        [Event.getStart bk, Event.getEnd bk, Event.transformCall bk]) := by
  have hc : _get_client ds = (c, ds, []) := _get_client_of_some ds c h
  cases hg : store.getObject bk.bucket bk.key with
  | error e =>
    exact absurd hv (by simp [fetchVal, _get_transformed_object, hc, hg])
  | ok obj =>
    cases ht : ds._transform obj with
    | error m =>
      exact absurd hv (by simp [fetchVal, _get_transformed_object, hc, hg, ht])
    | ok b =>
      have hb : Except.ok (ε := PipelineError) b = Except.ok a := by
        have := hv
        simpa [fetchVal, _get_transformed_object, hc, hg, ht] using this
      simp [ _get_transformed_object, hc, hg, ht, Except.ok.injEq] at hb ⊢
      exact hb

/-- Under a memoized client, a fetched object on which the transform
raises determines _get_transformed_object completely. -/
theorem _gto_full_of_transform_error (ds : S3IterableDataset α) (c : S3Client)
    (store : Store) (bk : S3BucketKey) (obj : S3Reader) (m : String)
    (h : ds._client = some c)
    (hobj : store.getObject bk.bucket bk.key = Except.ok obj)
    (ht : ds._transform obj = Except.error m) :
    _get_transformed_object ds store bk =
      (Except.error (PipelineError.transformError m), ds,
        [Event.getStart bk, Event.getEnd bk, Event.transformCall bk]) := by
  have hc : _get_client ds = (c, ds, []) := _get_client_of_some ds c h
  simp [ _get_transformed_object, hc, hobj, ht]

/-- Unfolding mapItems on a successful head identifier. -/
theorem mapItems_cons_ok (store : Store) (ds ds1 : S3IterableDataset α)
    (bk : S3BucketKey) (rest : List S3BucketKey) (a : α) (ev : List Event)
    (h : _get_transformed_object ds store bk = (Except.ok a, ds1, ev)) :
    mapItems store ds (bk :: rest) =
      ((a :: (mapItems store ds1 rest).1.1, (mapItems store ds1 rest).1.2),
        (mapItems store ds1 rest).2.1, ev ++ (mapItems store ds1 rest).2.2) := by
  simp only [mapItems]
  rw [h]

/-- Unfolding mapItems on a failing head identifier. -/
theorem mapItems_cons_err (store : Store) (ds ds1 : S3IterableDataset α)
    (bk : S3BucketKey) (rest : List S3BucketKey) (e : PipelineError)
    (ev : List Event)
    (h : _get_transformed_object ds store bk = (Except.error e, ds1, ev)) :
    mapItems store ds (bk :: rest) = (([], some e), ds1, ev) := by
  simp only [mapItems]
  rw [h]

/-- Under a memoized client, mapItems leaves the dataset state unchanged
whatever the outcomes are. -/
theorem mapItems_state (store : Store) (ds : S3IterableDataset α) (c : S3Client)
    (ids : List S3BucketKey) (h : ds._client = some c) :
    (mapItems store ds ids).2.1 = ds := by
  induction ids with
  | nil => rfl
  | cons bk rest ih =>
    obtain ⟨hst, tail, hev, -⟩ := _gto_of_some ds c store bk h
    cases hg : _get_transformed_object ds store bk with
    | mk v rest2 =>
      obtain ⟨ds1, ev⟩ := rest2
      have hds1 : ds1 = ds := by rw [hg] at hst; exact hst
      cases v with
      | error e => rw [mapItems_cons_err store ds ds1 bk rest e ev (by rw [hg]), hds1]
      | ok a =>
        rw [mapItems_cons_ok store ds ds1 bk rest a ev (by rw [hg]), hds1]
        exact ih

/-- Under a memoized client, no event of mapItems is a client creation. -/
theorem mapItems_no_create (store : Store) (ds : S3IterableDataset α)
    (c : S3Client) (ids : List S3BucketKey) (h : ds._client = some c) :
    ∀ e ∈ (mapItems store ds ids).2.2, e.isCreate = false := by
  induction ids with
  | nil => intro e he; simp [mapItems] at he
  | cons bk rest ih =>
    obtain ⟨hst, tail, hev, htail⟩ := _gto_of_some ds c store bk h
    cases hg : _get_transformed_object ds store bk with
    | mk v rest2 =>
      obtain ⟨ds1, ev⟩ := rest2
      have hds1 : ds1 = ds := by rw [hg] at hst; exact hst
      have hev2 : ev = Event.getStart bk :: Event.getEnd bk :: tail := by
        rw [hg] at hev; exact hev
      have hmem : ∀ e ∈ ev, Event.isCreate e = false := by
        intro e he
        rw [hev2] at he
        have h3 : e = Event.getStart bk ∨ e = Event.getEnd bk ∨ e ∈ tail := by
          simpa [List.mem_cons] using he
        rcases h3 with rfl | rfl | h2
        · rfl
        · rfl
        · rcases htail with h1 | h1 <;> rw [h1] at h2
          · simp at h2
          · have h4 : e = Event.transformCall bk := by simpa using h2
            rw [h4]; rfl
      cases v with
      | error e =>
        rw [mapItems_cons_err store ds ds1 bk rest e ev (by rw [hg])]
        exact hmem
      | ok a =>
        rw [mapItems_cons_ok store ds ds1 bk rest a ev (by rw [hg]), hds1]
        intro e he
        rcases List.mem_append.mp he with h2 | h2
        · exact hmem e h2
        · exact ih e h2

/-- The dataset state after a full iteration is exactly the state after
_get_client : iteration changes nothing but the memoized client. -/
theorem iterDataset_state (ds : S3IterableDataset α) (store : Store) :
    (iterDataset ds store).2.1 = ( _get_client ds).2.1 := by
  cases hsel : ( _get_client ds).2.1._get_dataset_objects ( _get_client ds).1 store with
  | error e => simp [iterDataset, hsel]
  | ok ids =>
    simp only [iterDataset, hsel]
    exact mapItems_state store _ ( _get_client ds).1 ids ( _get_client_client ds)

/-- When every identifier fetches and transforms successfully, mapItems
emits no error and exactly one item per identifier, in order. -/
theorem mapItems_all_ok (store : Store) (ds : S3IterableDataset α) (c : S3Client)
    (ids : List S3BucketKey) (h : ds._client = some c)
    (hok : ∀ bk ∈ ids, ∃ a, fetchVal ds store bk = Except.ok a) :
    (mapItems store ds ids).1.2 = none ∧
      (mapItems store ds ids).1.1.length = ids.length ∧
      ∀ i (h1 : i < (mapItems store ds ids).1.1.length) (h2 : i < ids.length),
        Except.ok ((mapItems store ds ids).1.1.get ⟨i, h1⟩) =
          fetchVal ds store (ids.get ⟨i, h2⟩) := by
  induction ids with
  | nil =>
    refine ⟨rfl, rfl, ?_⟩
    intro i h1 h2
    exact absurd h2 (Nat.not_lt_zero i)
  | cons bk rest ih =>
    obtain ⟨a, ha⟩ := hok bk (List.mem_cons_self bk rest)
    have hrest : ∀ b ∈ rest, ∃ x, fetchVal ds store b = Except.ok x :=
      fun b hb => hok b (List.mem_cons_of_mem bk hb)
    obtain ⟨e1, e2, e3⟩ := ih hrest
    rw [mapItems_cons_ok store ds ds bk rest a _
      ( _gto_full_of_ok ds c store bk a h ha)]
    refine ⟨e1, congrArg (fun n => n + 1) e2, ?_⟩
    intro i h1 h2
    cases i with
    | zero => exact ha.symm
    | succ n => exact e3 n (Nat.lt_of_succ_lt_succ h1) (Nat.lt_of_succ_lt_succ h2)

/-- Claim C1: when the selection callable succeeds and no store or
transform error occurs on any produced identifier, a full iteration emits
no error and yields exactly one item per identifier, in the order the
selector produced the identifiers, with nothing duplicated or skipped:
the i-th emitted item is the transformed fetch of the i-th identifier. -/
theorem c1_iterate_one_item_per_id (ds : S3IterableDataset α) (store : Store)
    (ids : List S3BucketKey)
    (hsel : ds._get_dataset_objects ( _get_client ds).1 store = Except.ok ids)
    (hok : ∀ bk ∈ ids, ∃ a,
      fetchVal ( _get_client ds).2.1 store bk = Except.ok a) :
    (iterDataset ds store).1.2 = none ∧
      (iterDataset ds store).1.1.length = ids.length ∧
      ∀ i (h1 : i < (iterDataset ds store).1.1.length) (h2 : i < ids.length),
        Except.ok ((iterDataset ds store).1.1.get ⟨i, h1⟩) =
          fetchVal ( _get_client ds).2.1 store (ids.get ⟨i, h2⟩) := by
  have hsel2 : ( _get_client ds).2.1._get_dataset_objects ( _get_client ds).1 store
      = Except.ok ids := by
    rw [ _get_client_gdo]; exact hsel
  obtain ⟨e1, e2, e3⟩ := mapItems_all_ok store ( _get_client ds).2.1
    ( _get_client ds).1 ids ( _get_client_client ds) hok
  have hre : iterDataset ds store =
      ((mapItems store ( _get_client ds).2.1 ids).1,
        (mapItems store ( _get_client ds).2.1 ids).2.1,
        ( _get_client ds).2.2 ++ (mapItems store ( _get_client ds).2.1 ids).2.2) := by
    simp only [iterDataset, hsel2]
  rw [hre]
  exact ⟨e1, e2, e3⟩

/-- Witness for claim C1 at the concrete two-object dataset of the spec
example: both hypotheses hold and the conclusion follows. -/
theorem c1_witness :
    (dsW._get_dataset_objects ( _get_client dsW).1 storeC =
        Except.ok [bkA, bkB]) ∧
      (∀ bk ∈ [bkA, bkB], ∃ a,
        fetchVal ( _get_client dsW).2.1 storeC bk = Except.ok a) ∧
      ((iterDataset dsW storeC).1.2 = none ∧
        (iterDataset dsW storeC).1.1.length = [bkA, bkB].length ∧
        ∀ i (h1 : i < (iterDataset dsW storeC).1.1.length)
          (h2 : i < [bkA, bkB].length),
          Except.ok ((iterDataset dsW storeC).1.1.get ⟨i, h1⟩) =
            fetchVal ( _get_client dsW).2.1 storeC ([bkA, bkB].get ⟨i, h2⟩)) := by
  have h1 : dsW._get_dataset_objects ( _get_client dsW).1 storeC =
      Except.ok [bkA, bkB] := by decide
  have h2 : ∀ bk ∈ [bkA, bkB], ∃ a,
      fetchVal ( _get_client dsW).2.1 storeC bk = Except.ok a := by
    intro bk hbk
    have h3 : bk = bkA ∨ bk = bkB := by simpa using hbk
    rcases h3 with rfl | rfl
    · exact ⟨readerA, by decide⟩
    · exact ⟨readerB, by decide⟩
  exact ⟨h1, h2, c1_iterate_one_item_per_id dsW storeC [bkA, bkB] h1 h2⟩

/-- Claim C2: a second full iteration on the state left by a first one
yields the same items and the same terminating error, leaves the state
unchanged, and replays the whole event trace of the first call except the
client creation: selection and fetch are re-run from scratch and no
per-iteration data is cached between the calls. -/
theorem c2_restart_equal (ds : S3IterableDataset α) (store : Store) :
    (iterDataset (iterDataset ds store).2.1 store).1 = (iterDataset ds store).1 ∧
      (iterDataset (iterDataset ds store).2.1 store).2.1 =
        (iterDataset ds store).2.1 ∧
      (iterDataset (iterDataset ds store).2.1 store).2.2 =
        (iterDataset ds store).2.2.filter (fun e => !e.isCreate) := by
  rw [iterDataset_state ds store]
  have hidem := _get_client_idem ds
  have hclear : ∀ e ∈ ( _get_client ds).2.2, Event.isCreate e = true := by
    intro e he
    cases h : ds._client with
    | none =>
      simp only [ _get_client, h] at he
      have h4 : e = Event.createClient ds.region := by simpa using he
      rw [h4]; rfl
    | some c => simp [ _get_client, h] at he
  cases hsel : ( _get_client ds).2.1._get_dataset_objects ( _get_client ds).1 store with
  | error e =>
    refine ⟨?_, ?_, ?_⟩
    · simp only [iterDataset, hidem, hsel]
    · simp only [iterDataset, hidem, hsel]
    · simp only [iterDataset, hidem, hsel]
      symm
      rw [List.filter_eq_nil_iff]
      intro e2 he2
      simp [hclear e2 he2]
  | ok ids =>
    have hnc := mapItems_no_create store ( _get_client ds).2.1 ( _get_client ds).1
      ids ( _get_client_client ds)
    refine ⟨?_, ?_, ?_⟩
    · simp only [iterDataset, hidem, hsel]
    · simp only [iterDataset, hidem, hsel]
      exact mapItems_state store _ ( _get_client ds).1 ids ( _get_client_client ds)
    · simp only [iterDataset, hidem, hsel]
      rw [List.filter_append]
      have hn : List.filter (fun e => !e.isCreate) ( _get_client ds).2.2 = [] := by
        rw [List.filter_eq_nil_iff]
        intro e2 he2
        simp [hclear e2 he2]
      have hs : List.filter (fun e => !e.isCreate)
          (mapItems store ( _get_client ds).2.1 ids).2.2 =
          (mapItems store ( _get_client ds).2.1 ids).2.2 := by
        rw [List.filter_eq_self]
        intro e2 he2
        simp [hnc e2 he2]
      rw [hn, hs, List.nil_append]

/-- Under a memoized client, no event of a full iteration is a client
creation. -/
theorem iterDataset_no_create_of_some (ds : S3IterableDataset α) (c : S3Client)
    (store : Store) (h : ds._client = some c) :
    ∀ e ∈ (iterDataset ds store).2.2, e.isCreate = false := by
  have hc : _get_client ds = (c, ds, []) := _get_client_of_some ds c h
  cases hsel : ds._get_dataset_objects c store with
  | error e => simp [iterDataset, hc, hsel]
  | ok ids =>
    intro e he
    simp only [iterDataset, hc, hsel] at he
    have h2 : e ∈ (mapItems store ds ids).2.2 := by simpa using he
    exact mapItems_no_create store ds c ids h e h2

/-- Any single operation on a dataset that already holds a client leaves
the state unchanged. -/
theorem runOp_frozen (store : Store) (ds : S3IterableDataset α) (c : S3Client)
    (op : DatasetOp) (h : ds._client = some c) : (runOp store ds op).1 = ds := by
  cases op with
  | iterate =>
    show (iterDataset ds store).2.1 = ds
    rw [iterDataset_state, _get_client_of_some ds c h]
  | readRegion => rfl
  | getClientCall =>
    show ( _get_client ds).2.1 = ds
    rw [ _get_client_of_some ds c h]

/-- Any single operation on a dataset that already holds a client emits no
client creation event. -/
theorem runOp_no_create (store : Store) (ds : S3IterableDataset α) (c : S3Client)
    (op : DatasetOp) (h : ds._client = some c) :
    ∀ e ∈ (runOp store ds op).2, e.isCreate = false := by
  cases op with
  | iterate => exact iterDataset_no_create_of_some ds c store h
  | readRegion => intro e he; simp [runOp] at he
  | getClientCall =>
    intro e he
    have hc : _get_client ds = (c, ds, []) := _get_client_of_some ds c h
    simp only [runOp, hc] at he
    simp at he

/-- Any operation sequence on a dataset that already holds a client leaves
the state unchanged. -/
theorem runOps_frozen (store : Store) (ds : S3IterableDataset α) (c : S3Client)
    (ops : List DatasetOp) (h : ds._client = some c) :
    (runOps store ds ops).1 = ds := by
  induction ops with
  | nil => rfl
  | cons op ops ih =>
    have h1 : (runOp store ds op).1 = ds := runOp_frozen store ds c op h
    have h2 : (runOps store ds (op :: ops)).1 =
        (runOps store (runOp store ds op).1 ops).1 := rfl
    rw [h2, h1, ih]

/-- Running any operation sequence either changes nothing, or the client
was absent and the only change is the memoized fresh client. -/
theorem runOps_state (store : Store) (ds : S3IterableDataset α)
    (ops : List DatasetOp) :
    (runOps store ds ops).1 = ds ∨
      (ds._client = none ∧
        (runOps store ds ops).1 =
          { ds with _client := some { region := ds._region } }) := by
  induction ops generalizing ds with
  | nil => exact Or.inl rfl
  | cons op ops ih =>
    have h2 : (runOps store ds (op :: ops)).1 =
        (runOps store (runOp store ds op).1 ops).1 := rfl
    cases h : ds._client with
    | some c =>
      have h1 : (runOp store ds op).1 = ds := runOp_frozen store ds c op h
      rw [h2, h1]
      rcases ih ds with h3 | ⟨h4, h5⟩
      · exact Or.inl h3
      · rw [h] at h4; exact absurd h4 (by simp)
    | none =>
      have hstep : (runOp store ds op).1 = ds ∨
          (runOp store ds op).1 = { ds with _client := some { region := ds._region } } := by
        cases op with
        | iterate =>
          refine Or.inr ?_
          show (iterDataset ds store).2.1 = _
          rw [iterDataset_state]
          simp [ _get_client, h, S3IterableDataset.region]
        | readRegion => exact Or.inl rfl
        | getClientCall =>
          refine Or.inr ?_
          show ( _get_client ds).2.1 = _
          simp [ _get_client, h, S3IterableDataset.region]
      rcases hstep with h1 | h1
      · rw [h2, h1]
        rcases ih ds with h3 | ⟨h4, h5⟩
        · exact Or.inl h3
        · exact Or.inr ⟨rfl, h5⟩
      · rw [h2, h1]
        have h3 : (runOps store { ds with _client := some { region := ds._region } }
            ops).1 = { ds with _client := some { region := ds._region } } :=
          runOps_frozen store _ { region := ds._region } ops rfl
        rw [h3]
        exact Or.inr ⟨rfl, rfl⟩

/-- The creation events of _get_client count the absent client exactly. -/
theorem _get_client_count (ds : S3IterableDataset α) :
    countCreates ( _get_client ds).2.2 = clientBit ds := by
  cases h : ds._client <;>
    simp [ _get_client, h, clientBit, countCreates, Event.isCreate]

/-- After _get_client the dataset always counts as having a client. -/
theorem clientBit_after_get (ds : S3IterableDataset α) :
    clientBit ( _get_client ds).2.1 = 0 := by
  have h := _get_client_client ds
  simp [clientBit, h]

/-- A full iteration creates exactly as many clients as _get_client does:
none when one is memoized, one otherwise. -/
theorem iterDataset_create_count (ds : S3IterableDataset α) (store : Store) :
    countCreates (iterDataset ds store).2.2 = clientBit ds := by
  cases hsel : ( _get_client ds).2.1._get_dataset_objects ( _get_client ds).1 store with
  | error e => simp only [iterDataset, hsel]; exact _get_client_count ds
  | ok ids =>
    simp only [iterDataset, hsel]
    have h0 : countCreates (mapItems store ( _get_client ds).2.1 ids).2.2 = 0 := by
      rw [countCreates, List.countP_eq_zero]
      intro e he
      simp [mapItems_no_create store _ ( _get_client ds).1 ids
        ( _get_client_client ds) e he]
    rw [countCreates, List.countP_append]
    rw [countCreates] at h0
    rw [h0, Nat.add_zero]
    exact _get_client_count ds

/-- One operation respects the creation budget: the creations it emits
plus the budget still open afterwards never exceed the budget open before
it. -/
theorem runOp_create_bound (store : Store) (ds : S3IterableDataset α)
    (op : DatasetOp) :
    countCreates (runOp store ds op).2 + clientBit (runOp store ds op).1 ≤
      clientBit ds := by
  cases op with
  | iterate =>
    show countCreates (iterDataset ds store).2.2 +
      clientBit (iterDataset ds store).2.1 ≤ clientBit ds
    rw [iterDataset_create_count, iterDataset_state, clientBit_after_get]
    omega
  | readRegion =>
    show countCreates [] + clientBit ds ≤ clientBit ds
    simp [countCreates]
  | getClientCall =>
    show countCreates ( _get_client ds).2.2 + clientBit ( _get_client ds).2.1 ≤
      clientBit ds
    rw [ _get_client_count, clientBit_after_get]
    omega

/-- An operation sequence respects the creation budget. -/
theorem runOps_create_bound (store : Store) (ds : S3IterableDataset α)
    (ops : List DatasetOp) :
    countCreates (runOps store ds ops).2 + clientBit (runOps store ds ops).1 ≤
      clientBit ds := by
  induction ops generalizing ds with
  | nil => simp [runOps, countCreates]
  | cons op ops ih =>
    have h2 : (runOps store ds (op :: ops)).2 =
        (runOp store ds op).2 ++ (runOps store (runOp store ds op).1 ops).2 := rfl
    have h3 : (runOps store ds (op :: ops)).1 =
        (runOps store (runOp store ds op).1 ops).1 := rfl
    rw [h2, h3, countCreates, List.countP_append]
    have h4 := runOp_create_bound store ds op
    have h5 := ih (runOp store ds op).1
    rw [countCreates] at h4 h5
    omega

/-- Claim C3: starting from a fresh dataset, any sequence of operations
creates at most one client handle; once some operation has memoized a
handle, every later client access returns that very handle and no later
operation ever replaces it. -/
theorem c3_single_client_creation (ds : S3IterableDataset α) (store : Store)
    (ops : List DatasetOp) (h : ds._client = none) :
    countCreates (runOps store ds ops).2 ≤ 1 ∧
      ∀ c, (runOps store ds ops).1._client = some c →
        ( _get_client (runOps store ds ops).1 = (c, (runOps store ds ops).1, []) ∧
          ∀ more, (runOps store (runOps store ds ops).1 more).1._client = some c) := by
  constructor
  · have h1 := runOps_create_bound store ds ops
    have h2 : clientBit ds = 1 := by simp [clientBit, h]
    omega
  · intro c hc
    refine ⟨ _get_client_of_some _ c hc, ?_⟩
    intro more
    have h3 : (runOps store (runOps store ds ops).1 more).1 =
        (runOps store ds ops).1 := runOps_frozen store _ c more hc
    rw [h3]
    exact hc

/-- Witness for claim C3: the fresh concrete dataset, driven through two
iterations, a region read and a client access, creates at most one
client. -/
theorem c3_witness :
    dsW._client = none ∧
      (countCreates (runOps storeC dsW opsW).2 ≤ 1 ∧
        ∀ c, (runOps storeC dsW opsW).1._client = some c →
          ( _get_client (runOps storeC dsW opsW).1 =
              (c, (runOps storeC dsW opsW).1, []) ∧
            ∀ more, (runOps storeC (runOps storeC dsW opsW).1 more).1._client =
              some c)) :=
  ⟨rfl, c3_single_client_creation dsW storeC opsW rfl⟩

/-- Claim C10: any sequence of iterations, client accesses and region
reads leaves the region, the transform and the selection callable exactly
as construction set them; the client field either stays what it was or,
when it was uninitialized, becomes the memoized fresh handle built from
the region, after which it never changes again. -/
theorem c10_config_frame (ds : S3IterableDataset α) (store : Store)
    (ops : List DatasetOp) :
    (runOps store ds ops).1._region = ds._region ∧
      (runOps store ds ops).1._transform = ds._transform ∧
      (runOps store ds ops).1._get_dataset_objects = ds._get_dataset_objects ∧
      ((runOps store ds ops).1._client = ds._client ∨
        (ds._client = none ∧
          (runOps store ds ops).1._client = some { region := ds._region })) := by
  rcases runOps_state store ds ops with h | ⟨h1, h2⟩
  · rw [h]
    exact ⟨rfl, rfl, rfl, Or.inl rfl⟩
  · rw [h2]
    exact ⟨rfl, rfl, rfl, Or.inr ⟨h1, rfl⟩⟩

/-- Claim C4 counterexample: constructing via from_objects on a malformed
URI completes normally, yielding an ordinary dataset value with no client
and the given region, and the invalid specification error is raised by
iteration instead: the error IS deferred to iteration, against the claim
that it surfaces at construction time and never during iteration. -/
theorem c4_counterexample :
    ( from_objects [badUri] regionA identity)._client = none ∧
      ( from_objects [badUri] regionA identity)._region = regionA ∧
      (iterDataset ( from_objects [badUri] regionA identity) emptyStore).1 =
        ([], some (PipelineError.invalidSpec badUri)) := by
  refine ⟨rfl, rfl, ?_⟩
  decide

/-- Claim C4 amended: construction via from_objects cannot fail, because
the parse of the URIs is deferred through the partial application; a
malformed URI makes the invalid specification error surface when iteration
invokes the selection callable, before any item is emitted. -/
theorem c4_deferred_invalid_spec (uris : List String) (region : String)
    (t : S3Reader → Except String α) (store : Store) (e : PipelineError)
    (hbad : get_objects_from_uris uris = Except.error e) :
    ( from_objects uris region t)._client = none ∧
      (iterDataset ( from_objects uris region t) store).1 = ([], some e) := by
  refine ⟨rfl, ?_⟩
  have h2 : ( _get_client ( from_objects uris region t)).2.1._get_dataset_objects
      ( _get_client ( from_objects uris region t)).1 store = Except.error e := by
    rw [ _get_client_gdo]
    exact hbad
  simp only [iterDataset, h2]

/-- Witness for the amended claim C4 at the concrete malformed URI. -/
theorem c4_witness :
    get_objects_from_uris [badUri] =
        Except.error (PipelineError.invalidSpec badUri) ∧
      (( from_objects [badUri] regionA boomTransform)._client = none ∧
        (iterDataset ( from_objects [badUri] regionA boomTransform) emptyStore).1 =
          ([], some (PipelineError.invalidSpec badUri))) :=
  ⟨by decide, c4_deferred_invalid_spec [badUri] regionA boomTransform emptyStore
    (PipelineError.invalidSpec badUri) (by decide)⟩

/-- With the identity transform, a successful fetch is emitted as-is. -/
theorem fetchVal_identity (ds : S3IterableDataset S3Reader) (store : Store)
    (bk : S3BucketKey) (r : S3Reader) (hid : ds._transform = identity)
    (hr : store.getObject bk.bucket bk.key = Except.ok r) :
    fetchVal ds store bk = Except.ok r := by
  simp [fetchVal, _get_transformed_object, hr, _get_client_transform, hid,
    identity]

/-- Claim C5: a dataset whose transform field is the default identity
emits every fetched object handle unchanged: under a successful selection
and successful fetches, the i-th emitted item is exactly the reader the
store returned for the i-th identifier. -/
theorem c5_default_transform_passthrough (ds : S3IterableDataset S3Reader)
    (store : Store) (ids : List S3BucketKey)
    (hid : ds._transform = identity)
    (hsel : ds._get_dataset_objects ( _get_client ds).1 store = Except.ok ids)
    (hget : ∀ bk ∈ ids, ∃ r, store.getObject bk.bucket bk.key = Except.ok r) :
    (iterDataset ds store).1.2 = none ∧
      (iterDataset ds store).1.1.length = ids.length ∧
      ∀ i (h1 : i < (iterDataset ds store).1.1.length) (h2 : i < ids.length),
        Except.ok ((iterDataset ds store).1.1.get ⟨i, h1⟩) =
          store.getObject ((ids.get ⟨i, h2⟩).bucket) ((ids.get ⟨i, h2⟩).key) := by
  have hid2 : (( _get_client ds).2.1)._transform = identity := by
    rw [ _get_client_transform, hid]
  have hok : ∀ bk ∈ ids, ∃ a,
      fetchVal ( _get_client ds).2.1 store bk = Except.ok a := by
    intro bk hbk
    obtain ⟨r, hr⟩ := hget bk hbk
    exact ⟨r, fetchVal_identity _ store bk r hid2 hr⟩
  have hsel2 : ( _get_client ds).2.1._get_dataset_objects ( _get_client ds).1 store
      = Except.ok ids := by
    rw [ _get_client_gdo]; exact hsel
  obtain ⟨e1, e2, e3⟩ := mapItems_all_ok store ( _get_client ds).2.1
    ( _get_client ds).1 ids ( _get_client_client ds) hok
  have hre : iterDataset ds store =
      ((mapItems store ( _get_client ds).2.1 ids).1,
        (mapItems store ( _get_client ds).2.1 ids).2.1,
        ( _get_client ds).2.2 ++ (mapItems store ( _get_client ds).2.1 ids).2.2) := by
    simp only [iterDataset, hsel2]
  rw [hre]
  refine ⟨e1, e2, ?_⟩
  intro i h1 h2
  obtain ⟨r, hr⟩ := hget (ids.get ⟨i, h2⟩) (List.get_mem ids i h2)
  have h4 := e3 i h1 h2
  rw [fetchVal_identity _ store _ r hid2 hr] at h4
  have h5 : (mapItems store ( _get_client ds).2.1 ids).1.1.get ⟨i, h1⟩ = r := by
    simpa using h4
  rw [h5, hr]

/-- Witness for claim C5 at the concrete two-object spec example with the
default transform: the three hypotheses hold and both ten-byte readers
come through unchanged. -/
theorem c5_witness :
    dsW._transform = identity ∧
      dsW._get_dataset_objects ( _get_client dsW).1 storeC =
        Except.ok [bkA, bkB] ∧
      (∀ bk ∈ [bkA, bkB], ∃ r,
        storeC.getObject bk.bucket bk.key = Except.ok r) ∧
      ((iterDataset dsW storeC).1.2 = none ∧
        (iterDataset dsW storeC).1.1.length = [bkA, bkB].length ∧
        ∀ i (h1 : i < (iterDataset dsW storeC).1.1.length)
          (h2 : i < [bkA, bkB].length),
          Except.ok ((iterDataset dsW storeC).1.1.get ⟨i, h1⟩) =
            storeC.getObject (([bkA, bkB].get ⟨i, h2⟩).bucket)
              (([bkA, bkB].get ⟨i, h2⟩).key)) := by
  have h0 : dsW._transform = identity := rfl
  have h1 : dsW._get_dataset_objects ( _get_client dsW).1 storeC =
      Except.ok [bkA, bkB] := by decide
  have h2 : ∀ bk ∈ [bkA, bkB], ∃ r,
      storeC.getObject bk.bucket bk.key = Except.ok r := by
    intro bk hbk
    have h3 : bk = bkA ∨ bk = bkB := by simpa using hbk
    rcases h3 with rfl | rfl
    · exact ⟨readerA, by decide⟩
    · exact ⟨readerB, by decide⟩
  exact ⟨h0, h1, h2, c5_default_transform_passthrough dsW storeC [bkA, bkB] h0 h1 h2⟩

/-- When every identifier before bk succeeds and the transform raises on
the object fetched for bk, mapItems stops at bk: it emits exactly the
items of the prefix, surfaces the raw transform error, and its trace is
the prefix blocks followed by the block of bk, nothing further. -/
theorem mapItems_fails_at (store : Store) (ds : S3IterableDataset α)
    (c : S3Client) (pre post : List S3BucketKey) (bk : S3BucketKey)
    (obj : S3Reader) (m : String) (h : ds._client = some c)
    (hpre : ∀ b ∈ pre, ∃ a, fetchVal ds store b = Except.ok a)
    (hobj : store.getObject bk.bucket bk.key = Except.ok obj)
    (ht : ds._transform obj = Except.error m) :
    (mapItems store ds (pre ++ bk :: post)).1.2 =
        some (PipelineError.transformError m) ∧
      (mapItems store ds (pre ++ bk :: post)).1.1.length = pre.length ∧
      ∃ evs, (mapItems store ds (pre ++ bk :: post)).2.2 =
          evs ++ [Event.getStart bk, Event.getEnd bk, Event.transformCall bk] ∧
        ∀ e ∈ evs, ∃ b, b ∈ pre ∧
          (e = Event.getStart b ∨ e = Event.getEnd b ∨ e = Event.transformCall b) := by
  induction pre with
  | nil =>
    rw [List.nil_append, mapItems_cons_err store ds ds bk post _ _
      ( _gto_full_of_transform_error ds c store bk obj m h hobj ht)]
    exact ⟨rfl, rfl, [], by simp, by simp⟩
  | cons b rest ih =>
    obtain ⟨a, ha⟩ := hpre b (List.mem_cons_self b rest)
    have hrest : ∀ x ∈ rest, ∃ y, fetchVal ds store x = Except.ok y :=
      fun x hx => hpre x (List.mem_cons_of_mem b hx)
    obtain ⟨e1, e2, evs, e3, e4⟩ := ih hrest
    have hsplit : (b :: rest) ++ bk :: post = b :: (rest ++ bk :: post) := rfl
    rw [hsplit, mapItems_cons_ok store ds ds b (rest ++ bk :: post) a _
      ( _gto_full_of_ok ds c store b a h ha)]
    refine ⟨e1, congrArg (fun n => n + 1) e2,
      [Event.getStart b, Event.getEnd b, Event.transformCall b] ++ evs, ?_, ?_⟩
    · rw [e3, List.append_assoc]
    · intro e he
      rcases List.mem_append.mp he with h5 | h5
      · have h6 : e = Event.getStart b ∨ e = Event.getEnd b ∨
            e = Event.transformCall b := by simpa using h5
        exact ⟨b, List.mem_cons_self b rest, h6⟩
      · obtain ⟨x, hx1, hx2⟩ := e4 e h5
        exact ⟨x, List.mem_cons_of_mem b hx1, hx2⟩

/-- Claim C9 counterexample: two runs whose transform raises on different
objects surface the very same error value, so the surfaced error carries
no object identifier at all; the code propagates the raw transform error
unwrapped (while iteration does stop there, as the amended claim says). -/
theorem c9_counterexample :
    get_objects_from_uris [uriA] = Except.ok [bkA] ∧
      get_objects_from_uris [uriB] = Except.ok [bkB] ∧
      bkA ≠ bkB ∧
      (iterDataset ( from_objects [uriA] regionA boomTransform) storeC).1 =
        (iterDataset ( from_objects [uriB] regionA boomTransform) storeC).1 ∧
      (iterDataset ( from_objects [uriA] regionA boomTransform) storeC).1.2 =
        some (PipelineError.transformError boomMsg) := by
  decide

/-- Claim C9 amended: when the transform raises on the object of the first
failing identifier, iteration terminates right there with the raw
transform error (the cause, without the object identifier, which the code
does not attach): exactly the items before that identifier are emitted,
the transform runs exactly once on it, and no later identifier is ever
fetched. -/
theorem c9_transform_failure_aborts (ds : S3IterableDataset α) (store : Store)
    (pre post : List S3BucketKey) (bk : S3BucketKey) (obj : S3Reader)
    (m : String)
    (hsel : ds._get_dataset_objects ( _get_client ds).1 store =
      Except.ok (pre ++ bk :: post))
    (hpre : ∀ b ∈ pre, ∃ a, fetchVal ( _get_client ds).2.1 store b = Except.ok a)
    (hobj : store.getObject bk.bucket bk.key = Except.ok obj)
    (ht : ds._transform obj = Except.error m)
    (hbk : bk ∉ pre)
    (hpost : ∀ b ∈ post, b ∉ pre ∧ b ≠ bk) :
    (iterDataset ds store).1.2 = some (PipelineError.transformError m) ∧
      (iterDataset ds store).1.1.length = pre.length ∧
      ((iterDataset ds store).2.2).count (Event.transformCall bk) = 1 ∧
      ∀ b ∈ post, Event.getStart b ∉ (iterDataset ds store).2.2 := by
  have hsel2 : ( _get_client ds).2.1._get_dataset_objects ( _get_client ds).1 store
      = Except.ok (pre ++ bk :: post) := by
    rw [ _get_client_gdo]; exact hsel
  have ht2 : (( _get_client ds).2.1)._transform obj = Except.error m := by
    rw [ _get_client_transform]; exact ht
  obtain ⟨e1, e2, evs, e3, e4⟩ := mapItems_fails_at store ( _get_client ds).2.1
    ( _get_client ds).1 pre post bk obj m ( _get_client_client ds) hpre hobj ht2
  have hre : iterDataset ds store =
      ((mapItems store ( _get_client ds).2.1 (pre ++ bk :: post)).1,
        (mapItems store ( _get_client ds).2.1 (pre ++ bk :: post)).2.1,
        ( _get_client ds).2.2 ++
          (mapItems store ( _get_client ds).2.1 (pre ++ bk :: post)).2.2) := by
    simp only [iterDataset, hsel2]
  rw [hre]
  have hclientEv : ( _get_client ds).2.2 = [] ∨
      ( _get_client ds).2.2 = [Event.createClient ds._region] := by
    cases h : ds._client with
    | none => exact Or.inr (by simp [ _get_client, h, S3IterableDataset.region])
    | some c => exact Or.inl (by simp [ _get_client, h])
  have hnotin_evs : Event.transformCall bk ∉ evs := by
    intro hmem
    obtain ⟨b, hb1, hb2⟩ := e4 _ hmem
    rcases hb2 with h5 | h5 | h5
    · exact absurd h5 (by simp)
    · exact absurd h5 (by simp)
    · have h6 : bk = b := by simpa using h5
      exact hbk (by rw [h6]; exact hb1)
  refine ⟨e1, e2, ?_, ?_⟩
  · rw [e3]
    have hcnt0 : evs.count (Event.transformCall bk) = 0 :=
      List.count_eq_zero.mpr hnotin_evs
    have hcntC : (( _get_client ds).2.2).count (Event.transformCall bk) = 0 := by
      rcases hclientEv with h5 | h5 <;> rw [h5] <;> simp [List.count_cons]
    rw [List.count_append, List.count_append, hcnt0, hcntC]
    simp [List.count_cons]
  · intro b hb
    rw [e3]
    intro hmem
    rcases List.mem_append.mp hmem with h5 | h5
    · rcases hclientEv with h6 | h6 <;> rw [h6] at h5 <;> simp at h5
    · rcases List.mem_append.mp h5 with h6 | h6
      · obtain ⟨x, hx1, hx2⟩ := e4 _ h6
        rcases hx2 with h7 | h7 | h7
        · have h9 : b = x := by simpa using h7
          exact (hpost b hb).1 (by rw [h9]; exact hx1)
        · exact absurd h7 (by simp)
        · exact absurd h7 (by simp)
      · have h7 : Event.getStart b = Event.getStart bk ∨
            Event.getStart b = Event.getEnd bk ∨
            Event.getStart b = Event.transformCall bk := by simpa using h6
        rcases h7 with h8 | h8 | h8
        · exact (hpost b hb).2 (by simpa using h8)
        · exact absurd h8 (by simp)
        · exact absurd h8 (by simp)

/-- Witness for the amended claim C9: on the concrete two-object dataset
with the always raising transform, iteration stops at the first object
with the raw error, emits nothing, runs the transform once on it and never
fetches the second object. -/
theorem c9_witness :
    (( from_objects [uriA, uriB] regionA boomTransform)._get_dataset_objects
        ( _get_client ( from_objects [uriA, uriB] regionA boomTransform)).1 storeC =
      Except.ok ([] ++ bkA :: [bkB])) ∧
      storeC.getObject bkA.bucket bkA.key = Except.ok readerA ∧
      ( from_objects [uriA, uriB] regionA boomTransform)._transform readerA =
        Except.error boomMsg ∧
      ((iterDataset ( from_objects [uriA, uriB] regionA boomTransform) storeC).1.2 =
          some (PipelineError.transformError boomMsg) ∧
        (iterDataset ( from_objects [uriA, uriB] regionA boomTransform)
          storeC).1.1.length = ([] : List S3BucketKey).length ∧
        ((iterDataset ( from_objects [uriA, uriB] regionA boomTransform)
          storeC).2.2).count (Event.transformCall bkA) = 1 ∧
        ∀ b ∈ [bkB], Event.getStart b ∉
          (iterDataset ( from_objects [uriA, uriB] regionA boomTransform)
            storeC).2.2) := by
  have h1 : ( from_objects [uriA, uriB] regionA boomTransform)._get_dataset_objects
      ( _get_client ( from_objects [uriA, uriB] regionA boomTransform)).1 storeC =
      Except.ok ([] ++ bkA :: [bkB]) := by decide
  have h2 : ∀ b ∈ ([] : List S3BucketKey), ∃ a,
      fetchVal ( _get_client ( from_objects [uriA, uriB] regionA boomTransform)).2.1
        storeC b = Except.ok a := by
    intro b hb
    exact absurd hb (List.not_mem_nil b)
  have h3 : storeC.getObject bkA.bucket bkA.key = Except.ok readerA := by decide
  have h4 : ( from_objects [uriA, uriB] regionA boomTransform)._transform readerA =
      Except.error boomMsg := by decide
  have h5 : bkA ∉ ([] : List S3BucketKey) := List.not_mem_nil bkA
  have h6 : ∀ b ∈ [bkB], b ∉ ([] : List S3BucketKey) ∧ b ≠ bkA := by
    intro b hb
    have h7 : b = bkB := by simpa using hb
    exact ⟨List.not_mem_nil b, by rw [h7]; decide⟩
  exact ⟨h1, h3, h4, c9_transform_failure_aborts
    ( from_objects [uriA, uriB] regionA boomTransform) storeC [] [bkB] bkA
    readerA boomMsg h1 h2 h3 h4 h5 h6⟩

/-- The bound check distributes over trace concatenation. -/
theorem getsBounded_append (w : Nat) (a b : List Event) : ∀ n,
    getsBounded w n (a ++ b) =
      (getsBounded w n a && getsBounded w (openAfter n a) b) := by
  induction a with
  | nil => intro n; simp [getsBounded, openAfter]
  | cons e a ih =>
    intro n
    cases e <;> simp [getsBounded, openAfter, ih, Bool.and_assoc]

/-- The open count after a concatenation composes. -/
theorem openAfter_append (a b : List Event) : ∀ n,
    openAfter n (a ++ b) = openAfter (openAfter n a) b := by
  induction a with
  | nil => intro n; rfl
  | cons e a ih => intro n; cases e <;> simp [openAfter, ih]

/-- The events of _get_client open no get call and stay bounded. -/
theorem _get_client_neutral (ds : S3IterableDataset α) (w n : Nat) :
    getsBounded w n ( _get_client ds).2.2 = true ∧
      openAfter n ( _get_client ds).2.2 = n := by
  cases h : ds._client <;> constructor <;>
    simp [ _get_client, h, getsBounded, openAfter]

/-- The events of _get_transformed_object are its client events followed
by the get bracket and possibly the transform invocation. -/
theorem _gto_events_shape (ds : S3IterableDataset α) (store : Store)
    (bk : S3BucketKey) :
    ∃ tail, ( _get_transformed_object ds store bk).2.2 =
        ( _get_client ds).2.2 ++ Event.getStart bk :: Event.getEnd bk :: tail ∧
      (tail = [] ∨ tail = [Event.transformCall bk]) := by
  cases hg : store.getObject bk.bucket bk.key with
  | error e =>
    exact ⟨[], by simp [ _get_transformed_object, hg], Or.inl rfl⟩
  | ok obj =>
    cases ht : ( _get_client ds).2.1._transform obj with
    | error m =>
      exact ⟨[Event.transformCall bk],
        by simp [ _get_transformed_object, hg, ht], Or.inr rfl⟩
    | ok a =>
      exact ⟨[Event.transformCall bk],
        by simp [ _get_transformed_object, hg, ht], Or.inr rfl⟩

/-- One fetch-and-transform step never holds more than one get call open
and closes it again: its trace is bounded by the default window and ends
with no open call. -/
theorem _gto_bounded (ds : S3IterableDataset α) (store : Store)
    (bk : S3BucketKey) :
    getsBounded defaultWindow 0 (( _get_transformed_object ds store bk).2.2) =
        true ∧
      openAfter 0 (( _get_transformed_object ds store bk).2.2) = 0 := by
  obtain ⟨tail, hev, htail⟩ := _gto_events_shape ds store bk
  obtain ⟨hcb, hco⟩ := _get_client_neutral ds defaultWindow 0
  rw [hev, getsBounded_append, openAfter_append, hcb, hco]
  rcases htail with rfl | rfl
  · exact ⟨rfl, rfl⟩
  · exact ⟨rfl, rfl⟩

/-- The trace of mapItems keeps the open get count within the default
window at every point. -/
theorem mapItems_bounded (store : Store) (ids : List S3BucketKey) :
    ∀ ds : S3IterableDataset α,
    getsBounded defaultWindow 0 ((mapItems store ds ids).2.2) = true := by
  induction ids with
  | nil => intro ds; rfl
  | cons bk rest ih =>
    intro ds
    obtain ⟨hb, ho⟩ := _gto_bounded ds store bk
    cases hg : _get_transformed_object ds store bk with
    | mk v r2 =>
      obtain ⟨ds1, ev⟩ := r2
      have hb2 : getsBounded defaultWindow 0 ev = true := by
        rw [hg] at hb; exact hb
      have ho2 : openAfter 0 ev = 0 := by rw [hg] at ho; exact ho
      cases v with
      | error e =>
        rw [mapItems_cons_err store ds ds1 bk rest e ev (by rw [hg])]
        exact hb2
      | ok a =>
        rw [mapItems_cons_ok store ds ds1 bk rest a ev (by rw [hg])]
        rw [getsBounded_append, hb2, ho2, ih ds1]
        rfl

/-- Claim C8: at every point of a full iteration, the number of
simultaneously open get calls against the store stays within the default
window of eight; the source issues the fetches strictly sequentially, so
the count in fact never exceeds one. -/
theorem c8_fetch_window_bound (ds : S3IterableDataset α) (store : Store) :
    getsBounded defaultWindow 0 ((iterDataset ds store).2.2) = true := by
  obtain ⟨hcb, hco⟩ := _get_client_neutral ds defaultWindow 0
  cases hsel : ( _get_client ds).2.1._get_dataset_objects ( _get_client ds).1 store with
  | error e =>
    simp only [iterDataset, hsel]
    exact hcb
  | ok ids =>
    simp only [iterDataset, hsel]
    rw [getsBounded_append, hcb, hco, mapItems_bounded store ids _]
    rfl

/-- A transient-error outcome of the retry loop means every attempt within
the budget failed transiently, the surfaced error is the last attempt, and
the waits doubled from the base delay on. -/
theorem retryFetch_exhausted (attempts : Nat → Except S3Error S3Reader)
    (base : Nat) (e : S3Error) : ∀ b i,
    (retryFetch attempts base i b).1 = Except.error e → e.isTransient = true →
    (∀ j, i ≤ j → j ≤ i + b → ∃ e2, attempts j = Except.error e2 ∧
        e2.isTransient = true) ∧
      attempts (i + b) = Except.error e ∧
      (retryFetch attempts base i b).2 =
        (List.range b).map (fun k => base * 2 ^ (i + k)) := by
  intro b
  induction b with
  | zero =>
    intro i hres htr
    cases hg : attempts i with
    | ok r =>
      simp only [retryFetch, hg] at hres
      exact absurd hres (by simp)
    | error e2 =>
      have he2 : e2 = e := by
        simp only [retryFetch, hg] at hres
        simpa using hres
      refine ⟨?_, ?_, ?_⟩
      · intro j hj1 hj2
        have hji : j = i := by omega
        rw [hji, hg, he2]
        exact ⟨e, rfl, htr⟩
      · rw [Nat.add_zero, hg, he2]
      · simp [retryFetch, hg]
  | succ b ihb =>
    intro i hres htr
    cases hg : attempts i with
    | ok r =>
      simp only [retryFetch, hg] at hres
      exact absurd hres (by simp)
    | error e2 =>
      by_cases htr2 : e2.isTransient = true
      · have hres2 : (retryFetch attempts base (i + 1) b).1 = Except.error e := by
          simp only [retryFetch, hg, htr2, if_true] at hres
          exact hres
        obtain ⟨ih1, ih2, ih3⟩ := ihb (i + 1) hres2 htr
        refine ⟨?_, ?_, ?_⟩
        · intro j hj1 hj2
          rcases Nat.eq_or_lt_of_le hj1 with rfl | hlt
          · exact ⟨e2, hg, htr2⟩
          · exact ih1 j hlt (by omega)
        · have h9 : i + (b + 1) = (i + 1) + b := by omega
          rw [h9]
          exact ih2
        · simp only [retryFetch, hg, htr2, if_true]
          rw [ih3, List.range_succ_eq_map, List.map_cons, List.map_map]
          congr 1
          apply List.map_congr_left
          intro k hk
          show base * 2 ^ (i + 1 + k) = base * 2 ^ (i + (k + 1))
          have h9 : i + 1 + k = i + (k + 1) := by omega
          rw [h9]
      · have he2 : e2 = e := by
          simp only [retryFetch, hg, if_neg htr2] at hres
          simpa using hres
        rw [he2] at htr2
        exact absurd htr htr2

/-- Claim C7: when the modelled client fetch surfaces a transient error,
the initial attempt and all three retries of the default budget failed
transiently (so a transient error is never surfaced with budget left), the
surfaced error is the one of the final attempt, and the waits followed the
exponential backoff schedule from the base delay. -/
theorem c7_transient_retries (attempts : Nat → Except S3Error S3Reader)
    (base : Nat) (e : S3Error)
    (hres : (get_object_retrying attempts base).1 = Except.error e)
    (htr : e.isTransient = true) :
    (∀ j, j ≤ retryLimit → ∃ e2, attempts j = Except.error e2 ∧
        e2.isTransient = true) ∧
      attempts retryLimit = Except.error e ∧
      (get_object_retrying attempts base).2 =
        (List.range retryLimit).map (fun k => base * 2 ^ k) := by
  obtain ⟨h1, h2, h3⟩ := retryFetch_exhausted attempts base e retryLimit 0 hres htr
  refine ⟨?_, ?_, ?_⟩
  · intro j hj
    exact h1 j (Nat.zero_le j) (by omega)
  · have h9 : (0 : Nat) + retryLimit = retryLimit := Nat.zero_add retryLimit
    rw [h9] at h2
    exact h2
  · show (retryFetch attempts base 0 retryLimit).2 = _
    rw [h3]
    apply List.map_congr_left
    intro k hk
    show base * 2 ^ (0 + k) = base * 2 ^ k
    rw [Nat.zero_add]

/-- Witness for claim C7: with every attempt timing out and base delay
seven, the loop surfaces the timeout only after four transient failures
and waits seven, fourteen and twenty-eight. -/
theorem c7_witness :
    (get_object_retrying timeoutAttempts 7).1 = Except.error S3Error.timeout ∧
      S3Error.isTransient S3Error.timeout = true ∧
      ((∀ j, j ≤ retryLimit → ∃ e2, timeoutAttempts j = Except.error e2 ∧
          e2.isTransient = true) ∧
        timeoutAttempts retryLimit = Except.error S3Error.timeout ∧
        (get_object_retrying timeoutAttempts 7).2 =
          (List.range retryLimit).map (fun k => 7 * 2 ^ k)) := by
  have h1 : (get_object_retrying timeoutAttempts 7).1 =
      Except.error S3Error.timeout := by decide
  have h2 : S3Error.isTransient S3Error.timeout = true := by decide
  exact ⟨h1, h2, c7_transient_retries timeoutAttempts 7 S3Error.timeout h1 h2⟩

/-- Claim C6: constructing via from_prefix performs no network call and no
client creation: the construction is a plain value whose client field is
uninitialized. Calling __iter__ on it creates at most the client but emits
no listing call, and the listing call to the store happens exactly when
the resulting lazy sequence is first pulled. -/
theorem c6_lazy_listing (uri region : String) (t : S3Reader → Except String α)
    (store : Store) (pb : S3BucketKey)
    (hp : parsePrefixUri uri = Except.ok pb) :
    ( from_prefix uri region t)._client = none ∧
      (∀ e ∈ (iterLazyInit uri ( from_prefix uri region t)).2,
        e.isListCall = false) ∧
      ∃ evs, (pullNext store (iterLazyInit uri ( from_prefix uri region t)).1).2.2 =
        Event.listCall pb.bucket pb.key :: evs := by
  refine ⟨rfl, ?_, ?_⟩
  · intro e he
    have h2 : e = Event.createClient region := by
      simpa [iterLazyInit, _get_client, from_prefix, S3IterableDataset.init,
        S3IterableDataset.region] using he
    rw [h2]
    rfl
  · simp only [pullNext, iterLazyInit, hp]
    cases hl : store.listObjects pb.bucket pb.key with
    | nil => exact ⟨[], rfl⟩
    | cons bk rest => exact ⟨_, rfl⟩

/-- Witness for claim C6 at the concrete prefix URI of the spec example:
the URI parses, construction leaves the client uninitialized, starting the
iterator emits no listing call, and the first pull issues it. -/
theorem c6_witness :
    parsePrefixUri dataUri = Except.ok { bucket := bucketB, key := dataPfx } ∧
      (( from_prefix dataUri regionA identity)._client = none ∧
        (∀ e ∈ (iterLazyInit dataUri ( from_prefix dataUri regionA identity)).2,
          e.isListCall = false) ∧
        ∃ evs, (pullNext storeC
            (iterLazyInit dataUri ( from_prefix dataUri regionA identity)).1).2.2 =
          Event.listCall bucketB dataPfx :: evs) := by
  have h1 : parsePrefixUri dataUri =
      Except.ok { bucket := bucketB, key := dataPfx } := by decide
  exact ⟨h1, c6_lazy_listing dataUri regionA identity storeC
    { bucket := bucketB, key := dataPfx } h1⟩

end S3Connector
